import Mathlib

/-
Verification of the parse-orchestration and blind-battle subsystem of the
DocAgent-Arena repository, as a shallow embedding in Lean 4.

Conventions of the embedding:
- JavaScript numbers are modelled as exact rationals (ℚ); page counts and
  indices as Nat / Int where the source treats them as integers.
- JavaScript objects used as string-keyed records are modelled as
  association lists with insertion-order update semantics.
- Fallible code returns Option / Except; a caught exception is a none.
- Backend components that only have callers or schema under src/
  (parse orchestrator, streaming channel, battle selector, feedback
  endpoint, pricing resolver lookup) are modelled from the spec; each such
  definition carries a doc comment starting with: Modelled from the spec.
-/

namespace DocArena

/-! ### Pricing: configuration payloads (frontend/lib/modelUtils.ts)

A provider configuration is a loosely typed record; fields absent on the
JavaScript object are modelled as none and stringify to "undefined" when
interpolated, exactly as in the source template literals. -/

structure RawConfig where
  parse_mode : Option String
  model : Option String
  mode : Option String
  summarize_figures : Option Bool
  deriving DecidableEq, Repr

/-- ModelOption from frontend/lib/modelUtils.ts: one selectable pricing
entry of the legacy per-provider tables. -/
structure ModelOption where
  value : String
  label : String
  description : String
  credits : ℚ
  deriving DecidableEq, Repr

/-- LLAMAINDEX_MODELS from frontend/lib/modelUtils.ts. -/
def LLAMAINDEX_MODELS : List ModelOption :=
  [ { value := "parse_page_with_llm:default"
    , label := "Cost-effective"
    , description := "3 credits/page ($0.003/page)"
    , credits := 3 }
  , { value := "parse_page_with_agent:openai-gpt-4-1-mini"
    , label := "Agentic"
    , description := "10 credits/page ($0.010/page)"
    , credits := 10 }
  , { value := "parse_page_with_agent:anthropic-sonnet-4.0"
    , label := "Agentic Plus"
    , description := "90 credits/page ($0.090/page)"
    , credits := 90 } ]

/-- REDUCTO_MODELS from frontend/lib/modelUtils.ts. -/
def REDUCTO_MODELS : List ModelOption :=
  [ { value := "standard"
    , label := "Standard"
    , description := "1 credit/page ($0.015/page)"
    , credits := 1 }
  , { value := "complex"
    , label := "Complex VLM"
    , description := "2 credits/page ($0.030/page)"
    , credits := 2 } ]

/-- llamaIndexConfigToValue from frontend/lib/modelUtils.ts: the template
literal over parse_mode and model; a missing field stringifies to
"undefined". -/
def llamaIndexConfigToValue (config : RawConfig) : String :=
  config.parse_mode.getD "undefined" ++ ":" ++ config.model.getD "undefined"

/-- reductoConfigToValue from frontend/lib/modelUtils.ts: returns the mode
field; a missing field compares equal to no table value, which the
"undefined" placeholder preserves. -/
def reductoConfigToValue (config : RawConfig) : String :=
  config.mode.getD "undefined"

/-- getModelCredits from frontend/lib/modelUtils.ts (lines 90 to 101).
The JavaScript reads model?.credits || 10 (resp. || 1), so a found entry
whose credits are 0 would also fall back; any other provider id returns 0. -/
def getModelCredits (provider : String) (config : RawConfig) : ℚ :=
  if provider = "llamaindex" then
    match LLAMAINDEX_MODELS.find? (fun m => m.value = llamaIndexConfigToValue config) with
    | some m => if m.credits = 0 then 10 else m.credits
    | none => 10
  else if provider = "reducto" then
    match REDUCTO_MODELS.find? (fun m => m.value = reductoConfigToValue config) with
    | some m => if m.credits = 0 then 1 else m.credits
    | none => 1
  else 0

/-! ### Pricing: the per-provider pricing map used by CostEstimation -/

/-- One selectable entry of the pricing table served by the backend and
consumed by CostEstimation; carries both a per-page credit rate and a
per-page USD rate, plus whether the provider declares it as its default. -/
structure PricingModelOption where
  value : String
  label : String
  credits_per_page : ℚ
  usd_per_page : ℚ
  is_default : Bool
  deriving DecidableEq, Repr

/-- ProviderPricingInfo: one provider entry of the pricing table. -/
structure ProviderPricingInfo where
  provider : String
  usd_per_credit : ℚ
  models : List PricingModelOption
  deriving DecidableEq, Repr

/-- pricingMap from frontend/hooks/useProviderPricing.ts: the reduce that
keys the pricing list by provider; a later entry overwrites an earlier one. -/
def pricingMapLookup (table : List ProviderPricingInfo) (provider : String) :
    Option ProviderPricingInfo :=
  table.foldl (fun acc info => if info.provider = provider then some info else acc) none

/-- Modelled from the spec: getModelOptionForConfig, imported by
CostEstimation from frontend/lib/modelUtils.ts, is not under src (only the
legacy modelUtils version is). Per the spec section 4.6, the resolver
matches a runtime configuration to a table entry by exact field match on
the provider recognized key set, falls back to the provider declared
default entry only when no exact match exists, and reports unavailable
(none) when the provider itself is unknown. The exact-match key sets for
llamaindex (parse_mode, model) and reducto (mode) are taken from the
serializers of frontend/lib/modelUtils.ts, which are under src. -/
def getModelOptionForConfig (provider : String) (config : RawConfig)
    (table : List ProviderPricingInfo) : Option PricingModelOption :=
  match pricingMapLookup table provider with
  | none => none
  | some info =>
      let exact :=
        if provider = "llamaindex" then
          info.models.find? (fun m => m.value = llamaIndexConfigToValue config)
        else if provider = "reducto" then
          info.models.find? (fun m => m.value = reductoConfigToValue config)
        else none
      match exact with
      | some m => some m
      | none => info.models.find? (fun m => m.is_default)

/-- ProviderCost from CostEstimation
(frontend/components/parse/FileUploadZone.tsx). -/
structure ProviderCost where
  credits_per_page : ℚ
  total_credits : ℚ
  usd_per_credit : ℚ
  total_usd : ℚ
  deriving DecidableEq, Repr

/-- calculateProviderCost from CostEstimation
(frontend/components/parse/FileUploadZone.tsx, lines 112 to 132).
Returns none when the pricing map is absent, the provider is not in the
map, or the selection does not resolve; otherwise
total_credits = pageCount * credits_per_page and
total_usd = usd_per_page * pageCount, with usd_per_credit copied from the
provider entry. -/
def calculateProviderCost (pricing : Option (List ProviderPricingInfo))
    (pageCount : ℚ) (provider : String) (config : RawConfig) :
    Option ProviderCost :=
  match pricing with
  | none => none
  | some table =>
      match pricingMapLookup table provider with
      | none => none
      | some providerPricing =>
          match getModelOptionForConfig provider config table with
          | none => none
          | some option =>
              some { credits_per_page := option.credits_per_page
                   , total_credits := pageCount * option.credits_per_page
                   , usd_per_credit := providerPricing.usd_per_credit
                   , total_usd := option.usd_per_page * pageCount }

/-- A pricing table entry is consistently priced when its per-page USD
rate is its per-page credit rate times the provider USD-per-credit rate;
the spec derives total_usd from credits, so its table satisfies this by
construction. -/
def ConsistentTable (table : List ProviderPricingInfo) : Prop :=
  ∀ info ∈ table, ∀ m ∈ info.models,
    m.usd_per_page = m.credits_per_page * info.usd_per_credit

/-! ### Concrete pricing fixtures used by witnesses -/

/-- The published llamaindex and reducto rates, as a pricing table of the
shape CostEstimation consumes (USD per credit: 0.001 resp. 0.015). -/
def specPricingTable : List ProviderPricingInfo :=
  [ { provider := "llamaindex"
    , usd_per_credit := 1/1000
    , models :=
      [ { value := "parse_page_with_llm:default", label := "Cost-effective"
        , credits_per_page := 3, usd_per_page := 3/1000, is_default := false }
      , { value := "parse_page_with_agent:openai-gpt-4-1-mini", label := "Agentic"
        , credits_per_page := 10, usd_per_page := 10/1000, is_default := true }
      , { value := "parse_page_with_agent:anthropic-sonnet-4.0", label := "Agentic Plus"
        , credits_per_page := 90, usd_per_page := 90/1000, is_default := false } ] }
  , { provider := "reducto"
    , usd_per_credit := 15/1000
    , models :=
      [ { value := "standard", label := "Standard"
        , credits_per_page := 1, usd_per_page := 15/1000, is_default := true }
      , { value := "complex", label := "Complex VLM"
        , credits_per_page := 2, usd_per_page := 30/1000, is_default := false } ] } ]

/-- The default llamaindex selection (parse_page_with_llm, default). -/
def cfgLlamaCostEffective : RawConfig :=
  { parse_mode := some "parse_page_with_llm", model := some "default"
  , mode := none, summarize_figures := none }

/-- A llamaindex selection matching no table entry. -/
def cfgLlamaUnknown : RawConfig :=
  { parse_mode := some "bogus_mode", model := some "bogus_model"
  , mode := none, summarize_figures := none }

/-- A reducto standard-mode selection. -/
def cfgReductoStandard : RawConfig :=
  { parse_mode := none, model := none
  , mode := some "standard", summarize_figures := some false }

/-- The cost breakdown CostEstimation computes for 4 pages of the
cost-effective llamaindex selection against specPricingTable. -/
def witnessCost : ProviderCost :=
  { credits_per_page := 3, total_credits := 12
  , usd_per_credit := 1/1000, total_usd := 3/250 }

/-! ### JavaScript string-keyed records as ordered association lists -/

/-- Property read obj[k] on a JavaScript object. -/
def recordLookup {α : Type} (l : List (String × α)) (k : String) : Option α :=
  (l.find? (fun e => e.1 = k)).map (fun e => e.2)

/-- Property write obj[k] = v on a JavaScript object: replaces in place
when the key exists, appends otherwise (insertion-order semantics). -/
def recordSet {α : Type} (l : List (String × α)) (k : String) (v : α) :
    List (String × α) :=
  match l with
  | [] => [(k, v)]
  | e :: t => if e.1 = k then (k, v) :: t else e :: recordSet t k v

/-! ### Run-level aggregation (frontend/lib/aggregateScores.ts) -/

/-- A JavaScript value as stored in the loosely typed aggregated_scores
record: a (non-NaN) number, NaN, or anything else; the source filters with
typeof value === number and !isNaN(value). -/
inductive ScoreValue where
  | num (q : ℚ)
  | nan
  | other
  deriving DecidableEq, Repr

/-- ProviderResult from frontend/types: the per-document outcome of one
provider, restricted to the fields calculateOverallScores reads. -/
structure ProviderResult where
  status : String
  aggregated_scores : List (String × ScoreValue)
  duration_seconds : Option ℚ
  deriving DecidableEq, Repr

/-- DocumentResult from frontend/types: provider name to result. -/
structure DocumentResult where
  doc_id : String
  providers : List (String × ProviderResult)
  deriving DecidableEq, Repr

/-- ProviderOverallScores from frontend/lib/aggregateScores.ts. -/
structure ProviderOverallScores where
  provider : String
  averageScores : List (String × ℚ)
  averageDuration : Option ℚ
  successRate : ℚ
  totalDocuments : Nat
  successfulDocuments : Nat
  deriving DecidableEq, Repr

/-- The mutable accumulators of the document loop in
calculateOverallScores. -/
structure AggState where
  metricSums : List (String × ℚ)
  metricCounts : List (String × ℚ)
  durations : List ℚ
  successfulDocs : Nat
  totalDocs : Nat
  deriving DecidableEq, Repr

/-- The body of the Object.entries(aggregated_scores).forEach in
calculateOverallScores: a numeric non-NaN value is added to the running
sum and count of its metric; the guard is the JavaScript falsy test
if (!metricSums[metric]), which initializes the accumulators when the
metric is new AND whenever the running sum is currently 0. -/
def processScore (st : AggState) (entry : String × ScoreValue) : AggState :=
  match entry.2 with
  | ScoreValue.num v =>
      let st1 :=
        match recordLookup st.metricSums entry.1 with
        | none =>
            { st with metricSums := recordSet st.metricSums entry.1 0
                    , metricCounts := recordSet st.metricCounts entry.1 0 }
        | some s =>
            if s = 0 then
              { st with metricSums := recordSet st.metricSums entry.1 0
                      , metricCounts := recordSet st.metricCounts entry.1 0 }
            else st
      { st1 with
        metricSums := recordSet st1.metricSums entry.1
          ((recordLookup st1.metricSums entry.1).getD 0 + v)
      , metricCounts := recordSet st1.metricCounts entry.1
          ((recordLookup st1.metricCounts entry.1).getD 0 + 1) }
  | _ => st

/-- The body of the documents.forEach in calculateOverallScores; the
aggregated_scores record itself is always truthy in the model, so the
source condition reduces to the status test. -/
def processDoc (providerName : String) (st : AggState) (doc : DocumentResult) :
    AggState :=
  match recordLookup doc.providers providerName with
  | none => st
  | some providerResult =>
      let st := { st with totalDocs := st.totalDocs + 1 }
      if providerResult.status = "success" then
        let st := { st with successfulDocs := st.successfulDocs + 1 }
        let st := providerResult.aggregated_scores.foldl processScore st
        match providerResult.duration_seconds with
        | some d => { st with durations := st.durations ++ [d] }
        | none => st
      else st

/-- The per-provider body of calculateOverallScores: run the document
loop, then derive averageScores (sums divided by counts, in insertion
order), averageDuration (null when no duration was collected) and
successRate (0 when the provider appears in no document). -/
def overallForProvider (documents : List DocumentResult) (providerName : String) :
    ProviderOverallScores :=
  let st := documents.foldl (processDoc providerName)
    { metricSums := [], metricCounts := [], durations := []
    , successfulDocs := 0, totalDocs := 0 }
  { provider := providerName
  , averageScores := st.metricSums.map
      (fun e => (e.1, e.2 / (recordLookup st.metricCounts e.1).getD 0))
  , averageDuration :=
      if 0 < st.durations.length then
        some ((st.durations.foldl (fun a b => a + b) 0) / (st.durations.length : ℚ))
      else none
  , successRate :=
      if 0 < st.totalDocs then (st.successfulDocs : ℚ) / (st.totalDocs : ℚ) else 0
  , totalDocuments := st.totalDocs
  , successfulDocuments := st.successfulDocs }

/-- calculateOverallScores from frontend/lib/aggregateScores.ts
(lines 21 to 87). -/
def calculateOverallScores (documents : List DocumentResult)
    (providerNames : List String) : List ProviderOverallScores :=
  providerNames.map (overallForProvider documents)

/-- A document whose only provider entry is a successful result of
provider p with the single metric m valued v. -/
def c9Doc (i : String) (v : ℚ) : DocumentResult :=
  { doc_id := i
  , providers := [("p",
      { status := "success"
      , aggregated_scores := [("m", ScoreValue.num v)]
      , duration_seconds := none })] }

/-- Two documents whose metric m values for provider p are 0 and 1. -/
def c9Documents : List DocumentResult := [c9Doc "d1" 0, c9Doc "d2" 1]

/-! ### Single-page extraction (frontend hook usePDFViewer) -/

/-- extractCurrentPageAsBlob from the usePDFViewer hook: the loaded file
is modelled as none when absent and as the outcome of PDFDocument.load
otherwise (an Except, since loading a corrupt file throws and the
surrounding try/catch returns null); a loaded document is its list of
pages. The current page is 1-indexed; the source converts to a 0-indexed
pageIndex, throws (caught, hence none) when out of range, and otherwise
returns a new single-page document holding exactly the current page. -/
def extractCurrentPageAsBlob {α : Type} (pdfFile : Option (Except String (List α)))
    (currentPage : Int) : Option (List α) :=
  match pdfFile with
  | none => none
  | some (Except.error _) => none
  | some (Except.ok pages) =>
      if currentPage - 1 < 0 ∨ (pages.length : Int) ≤ currentPage - 1 then none
      else
        match pages[(currentPage - 1).toNat]? with
        | some pg => some [pg]
        | none => none

/-! ### Battle persistence (backend/prisma/migrations/002_parse_battle.sql) -/

/-- A battle_provider_results row, restricted to the columns the claims
are about. -/
structure BattleProviderResultRow where
  id : String
  battle_id : String
  provider : String
  label : String
  deriving DecidableEq, Repr

/-- A battle_feedback row, restricted to the columns the claims are
about. -/
structure BattleFeedbackRow where
  id : String
  battle_id : String
  preferred_labels : List String
  comment : Option String
  deriving DecidableEq, Repr

/-- The relational state of the battle subsystem: parse_battle_runs
(by id), battle_provider_results and battle_feedback. -/
structure BattleStore where
  runs : List String
  results : List BattleProviderResultRow
  feedback : List BattleFeedbackRow
  deriving DecidableEq, Repr

/-- The unique index battle_feedback_battle_id_key of
backend/prisma/migrations/002_parse_battle.sql: no two feedback rows share
a battle_id. -/
def FeedbackUnique (s : BattleStore) : Prop :=
  s.feedback.Pairwise (fun a b => a.battle_id ≠ b.battle_id)

/-- The stored feedback for a battle id. -/
def feedbackFor (s : BattleStore) (bid : String) : Option BattleFeedbackRow :=
  s.feedback.find? (fun g => g.battle_id = bid)

/-- Deleting a parse_battle_runs row under the two ON DELETE CASCADE
foreign keys of backend/prisma/migrations/002_parse_battle.sql: the
battle_provider_results and battle_feedback rows whose battle_id
references the deleted run are removed with it. -/
def deleteBattleRun (s : BattleStore) (bid : String) : BattleStore :=
  { runs := s.runs.filter (fun r => r ≠ bid)
  , results := s.results.filter (fun r => r.battle_id ≠ bid)
  , feedback := s.feedback.filter (fun f => f.battle_id ≠ bid) }

/-- Modelled from the spec: the feedback submission endpoint (the
revealed transition of the battle selector) is not under src. Per spec
section 4.4, a feedback submission appends the row once; a second
submission for the same battle_id fails with AlreadyRevealed and does not
mutate the stored feedback. The duplicate check is the unique index
battle_feedback_battle_id_key of the migration under src. -/
def submitFeedback (s : BattleStore) (fb : BattleFeedbackRow) :
    Except String BattleStore :=
  if s.feedback.any (fun g => g.battle_id = fb.battle_id) then
    Except.error "AlreadyRevealed"
  else
    Except.ok { s with feedback := s.feedback ++ [fb] }

/-! ### Battle pool selection (spec section 4.4, configuring state) -/

/-- The disabled guard on each provider checkbox of ModelSelectionCard
(frontend/components/battle/ModelSelectionCard.tsx): a provider cannot be
unchecked once the enabled pool is at the minimum size, keeping the pool
at 2 or more members on the client. -/
def providerToggleDisabled (enabledProviders : List String) (provider : String) :
    Bool :=
  decide (enabledProviders.length ≤ 2) && enabledProviders.contains provider

/-- Modelled from the spec: the battle selector (backend) is not under
src; only the client pool UI is. Per spec section 4.4, a pool of fewer
than 2 members is rejected with ConfigurationError before any dispatch,
and otherwise exactly 2 distinct providers are drawn at random. The
random draw is modelled by two seed numbers selecting an ordered pair of
distinct indices into the pool. -/
def selectBattlePair (pool : List String) (seed1 seed2 : Nat) :
    Except String (String × String) :=
  if pool.length < 2 then Except.error "ConfigurationError"
  else
    let n := pool.length
    let i := seed1 % n
    let k := seed2 % (n - 1)
    let j := if i ≤ k then k + 1 else k
    Except.ok (pool.getD i "", pool.getD j "")

/-- Modelled from the spec: blind label assignment (battle selector,
backend) is not under src. Per spec section 4.4, a uniformly random
bijection from the two chosen providers onto the labels A and B is chosen
and persisted (one label per battle_provider_results row in the schema
under src); the coin argument stands for the random draw. -/
def assignBlindLabels (p1 p2 : String) (coin : Bool) : List (String × String) :=
  if coin then [(p1, "A"), (p2, "B")] else [(p1, "B"), (p2, "A")]

/-- Resolving a blind label back to its provider in a label map. -/
def providerOfLabel (m : List (String × String)) (label : String) : Option String :=
  (m.find? (fun e => e.2 = label)).map (fun e => e.1)

/-- The label carried by a provider in a label map. -/
def labelOfProvider (m : List (String × String)) (p : String) : Option String :=
  (m.find? (fun e => e.1 = p)).map (fun e => e.2)

/-! ### Parse orchestration stream (spec sections 4.2 and 4.3) -/

/-- A terminal provider status: success, or error with a detail. -/
inductive OutcomeStatus where
  | success
  | error (msg : String)
  deriving DecidableEq, Repr

/-- ProviderOutcome from the spec data model, restricted to the fields
the stream claims are about. -/
structure ProviderOutcome where
  status : OutcomeStatus
  pages : List String
  duration : ℚ
  deriving DecidableEq, Repr

/-- The discrete messages of the streaming progress channel (spec section
4.3), as consumed by handleConfirmParse in the parse page under src. -/
inductive StreamEvent where
  | started (providers : List String)
  | progress (provider : String) (status : OutcomeStatus)
  | completed (results : List (String × ProviderOutcome))
  | fatalError (message : String)
  deriving DecidableEq, Repr

/-- Modelled from the spec: the parse orchestrator and the streaming
progress channel (backend) are not under src; only their consumer
handleConfirmParse in the parse page is. Per spec sections 4.2 and 4.3,
the channel carries a started event first listing all selected providers,
then one progress event per provider in real completion order as each
outcome becomes terminal, then a completed event carrying the full result
set; fatal_error exists only for jobs that cannot start at all and never
stands for a single provider failure. The function takes the terminal
outcome of every provider and the real completion order. -/
def streamEvents (job : List (String × ProviderOutcome))
    (completionOrder : List String) : List StreamEvent :=
  StreamEvent.started (job.map (fun e => e.1)) ::
    (completionOrder.filterMap (fun p =>
        (recordLookup job p).map (fun o => StreamEvent.progress p o.status))
      ++ [StreamEvent.completed job])

/-- Whether an event is a started event. -/
def isStartedEvent : StreamEvent → Bool
  | StreamEvent.started _ => true
  | _ => false

/-- Whether an event is a progress event. -/
def isProgressEvent : StreamEvent → Bool
  | StreamEvent.progress _ _ => true
  | _ => false

/-- Whether an event is a completed event. -/
def isCompletedEvent : StreamEvent → Bool
  | StreamEvent.completed _ => true
  | _ => false

/-- The provider of a progress event. -/
def progressProviderOf : StreamEvent → Option String
  | StreamEvent.progress p _ => some p
  | _ => none

/-! ### Concrete stream fixtures used by witnesses -/

/-- A two-provider job in which reducto fails with a timeout while
llamaindex succeeds. -/
def witnessJob : List (String × ProviderOutcome) :=
  [ ("llamaindex", { status := OutcomeStatus.success, pages := ["# Title"], duration := 2 })
  , ("reducto", { status := OutcomeStatus.error "timeout", pages := [], duration := 30 }) ]

/-- The real completion order of witnessJob: reducto finishes first. -/
def witnessOrder : List String := ["reducto", "llamaindex"]

/-- A battle store with two runs, three blind result rows and one
feedback row. -/
def witnessStore : BattleStore :=
  { runs := ["b1", "b2"]
  , results :=
      [ { id := "r1", battle_id := "b1", provider := "llamaindex", label := "A" }
      , { id := "r2", battle_id := "b1", provider := "reducto", label := "B" }
      , { id := "r3", battle_id := "b2", provider := "reducto", label := "A" } ]
  , feedback :=
      [ { id := "f1", battle_id := "b1", preferred_labels := ["A"], comment := none } ] }

/-- A store holding one run and no feedback yet. -/
def witnessFreshStore : BattleStore :=
  { runs := ["b9"], results := [], feedback := [] }

/-- A first feedback submission for battle b9. -/
def witnessFeedback1 : BattleFeedbackRow :=
  { id := "f10", battle_id := "b9", preferred_labels := ["A"], comment := none }

/-- A conflicting second feedback submission for battle b9. -/
def witnessFeedback2 : BattleFeedbackRow :=
  { id := "f11", battle_id := "b9", preferred_labels := ["B"], comment := some "better" }

end DocArena

namespace DocArena

/-! ### Helper lemmas on lookups -/

theorem foldl_lastMatch_mem {α : Type} (p : α → Bool) :
    ∀ (l : List α) (acc : Option α) (a : α),
      l.foldl (fun acc x => if p x then some x else acc) acc = some a →
      a ∈ l ∨ acc = some a := by
  intro l
  induction l with
  | nil => intro acc a h; exact Or.inr h
  | cons x t ih =>
    intro acc a h
    rcases ih _ a h with ht | hacc
    · exact Or.inl (List.mem_cons_of_mem _ ht)
    · by_cases hp : p x
      · simp [hp] at hacc
        exact Or.inl (hacc ▸ List.mem_cons_self _ _)
      · simp [hp] at hacc
        exact Or.inr hacc

theorem pricingMapLookup_mem {table : List ProviderPricingInfo} {provider : String}
    {info : ProviderPricingInfo} (h : pricingMapLookup table provider = some info) :
    info ∈ table := by
  unfold pricingMapLookup at h
  rcases foldl_lastMatch_mem (fun (i : ProviderPricingInfo) => decide (i.provider = provider))
      table none info (by simpa using h) with hm | hnone
  · exact hm
  · cases hnone

theorem getModelOptionForConfig_mem {provider : String} {config : RawConfig}
    {table : List ProviderPricingInfo} {opt : PricingModelOption}
    (h : getModelOptionForConfig provider config table = some opt) :
    ∃ info, pricingMapLookup table provider = some info ∧ opt ∈ info.models := by
  unfold getModelOptionForConfig at h
  cases hl : pricingMapLookup table provider with
  | none => rw [hl] at h; cases h
  | some info =>
    rw [hl] at h
    refine ⟨info, rfl, ?_⟩
    dsimp only at h
    rcases hex : (if provider = "llamaindex" then
        info.models.find? (fun m => m.value = llamaIndexConfigToValue config)
      else if provider = "reducto" then
        info.models.find? (fun m => m.value = reductoConfigToValue config)
      else none) with _ | m
    · rw [hex] at h
      exact List.mem_of_find?_eq_some h
    · rw [hex] at h
      cases h
      split at hex
      · exact List.mem_of_find?_eq_some hex
      · split at hex
        · exact List.mem_of_find?_eq_some hex
        · cases hex

/-! ### Claim C4: cost breakdown equations -/

/-- C4: for every resolvable (provider, selection) pair and every page
count, the CostBreakdown computed by calculateProviderCost satisfies
total_credits = page_count * credits_per_page and
total_usd = total_credits * usd_per_credit, for every pricing table whose
entries are consistently priced (usd_per_page = credits_per_page *
usd_per_credit, which holds of the spec table by construction since the
spec derives USD from credits). The source computes total_usd as
usd_per_page * pageCount, so the identity claimed is exactly table
consistency propagated through the arithmetic. -/
theorem C4_cost_breakdown_equations (table : List ProviderPricingInfo)
    (pageCount : ℚ) (provider : String) (config : RawConfig)
    (cost : ProviderCost) (hconsist : ConsistentTable table)
    (h : calculateProviderCost (some table) pageCount provider config = some cost) :
    cost.total_credits = pageCount * cost.credits_per_page ∧
    cost.total_usd = cost.total_credits * cost.usd_per_credit := by
  simp only [calculateProviderCost] at h
  cases hl : pricingMapLookup table provider with
  | none => rw [hl] at h; cases h
  | some providerPricing =>
    rw [hl] at h
    cases ho : getModelOptionForConfig provider config table with
    | none => rw [ho] at h; cases h
    | some option =>
      rw [ho] at h
      cases h
      obtain ⟨info, hinfo, hmem⟩ := getModelOptionForConfig_mem ho
      rw [hl] at hinfo
      cases hinfo
      refine ⟨rfl, ?_⟩
      have hc := hconsist providerPricing (pricingMapLookup_mem hl) option hmem
      dsimp only
      rw [hc]
      ring

/-- Witness for C4 at a concrete input: 4 pages of the cost-effective
llamaindex selection against the published pricing table. -/
theorem C4_cost_breakdown_equations_witness :
    witnessCost.total_credits = 4 * witnessCost.credits_per_page ∧
    witnessCost.total_usd = witnessCost.total_credits * witnessCost.usd_per_credit :=
  C4_cost_breakdown_equations specPricingTable 4 "llamaindex"
    cfgLlamaCostEffective witnessCost
    (by intro info hinfo m hm; fin_cases hinfo <;> fin_cases hm <;> norm_num)
    (by simp +decide [calculateProviderCost, pricingMapLookup, getModelOptionForConfig,
          specPricingTable, cfgLlamaCostEffective, llamaIndexConfigToValue, witnessCost,
          List.find?, List.foldl]
        norm_num)

/-! ### Claim C5: unresolvable pricing lookups -/

/-- C5 counterexample: the claim says an unknown provider id yields an
explicit unavailable result and never a fabricated credit value, but
getModelCredits (frontend/lib/modelUtils.ts) returns the number 0 for the
provider id landingai (a provider the application offers), not an
unavailable marker. -/
theorem C5_counterexample_unknown_provider_yields_zero :
    getModelCredits "landingai"
      { parse_mode := none, model := some "dpt-2", mode := none
      , summarize_figures := none } = 0 := by
  decide

/-- C5 as amended: in getModelCredits, an exact-match entry is used when
it exists and the provider hard-coded default credits (10 for llamaindex,
1 for reducto) are used when no exact match exists, while any other
provider id yields the number 0 rather than an unavailable marker; the
pricing path actually used for cost estimation, calculateProviderCost,
does report unavailable (none) for a provider missing from the pricing
map. -/
theorem C5_amended_credit_lookup_behavior :
    (∀ c m, LLAMAINDEX_MODELS.find?
        (fun x => x.value = llamaIndexConfigToValue c) = some m →
      getModelCredits "llamaindex" c = m.credits) ∧
    (∀ c, LLAMAINDEX_MODELS.find?
        (fun x => x.value = llamaIndexConfigToValue c) = none →
      getModelCredits "llamaindex" c = 10) ∧
    (∀ c m, REDUCTO_MODELS.find?
        (fun x => x.value = reductoConfigToValue c) = some m →
      getModelCredits "reducto" c = m.credits) ∧
    (∀ c, REDUCTO_MODELS.find?
        (fun x => x.value = reductoConfigToValue c) = none →
      getModelCredits "reducto" c = 1) ∧
    (∀ p c, p ≠ "llamaindex" → p ≠ "reducto" → getModelCredits p c = 0) ∧
    (∀ table pageCount p c, pricingMapLookup table p = none →
      calculateProviderCost (some table) pageCount p c = none) := by
  refine ⟨?_, ?_, ?_, ?_, ?_, ?_⟩
  · intro c m h
    have hm := List.mem_of_find?_eq_some h
    have hcr : ¬ m.credits = 0 := by
      fin_cases hm <;> norm_num
    simp [getModelCredits, h, hcr]
  · intro c h
    simp [getModelCredits, h]
  · intro c m h
    have hm := List.mem_of_find?_eq_some h
    have hcr : ¬ m.credits = 0 := by
      fin_cases hm <;> norm_num
    simp [getModelCredits, h, hcr]
  · intro c h
    simp [getModelCredits, h]
  · intro p c h1 h2
    simp [getModelCredits, h1, h2]
  · intro table pageCount p c h
    simp [calculateProviderCost, h]

/-- Witness for the amended C5 at a concrete input: a llamaindex selection
matching no table entry falls back to the default 10 credits. -/
theorem C5_amended_credit_lookup_behavior_witness :
    getModelCredits "llamaindex" cfgLlamaUnknown = 10 :=
  C5_amended_credit_lookup_behavior.2.1 cfgLlamaUnknown (by decide)

/-! ### Claim C10: single-page extraction is total -/

/-- C10: extractCurrentPageAsBlob never escapes with an exception (it is
a total function into Option): it returns none when no PDF file is
loaded, when loading the file fails, and when the current 1-indexed page
falls outside 1..pageCount; when the page is in range it returns a
single-page document holding exactly the current page. -/
theorem C10_extract_current_page_total (α : Type) :
    (∀ currentPage : Int,
      extractCurrentPageAsBlob (α := α) none currentPage = none) ∧
    (∀ (e : String) (currentPage : Int),
      extractCurrentPageAsBlob (α := α) (some (Except.error e)) currentPage = none) ∧
    (∀ (pages : List α) (currentPage : Int),
      currentPage < 1 ∨ (pages.length : Int) < currentPage →
      extractCurrentPageAsBlob (some (Except.ok pages)) currentPage = none) ∧
    (∀ (pages : List α) (currentPage : Int) (pg : α),
      1 ≤ currentPage → pages[(currentPage - 1).toNat]? = some pg →
      extractCurrentPageAsBlob (some (Except.ok pages)) currentPage = some [pg]) := by
  refine ⟨fun _ => rfl, fun _ _ => rfl, ?_, ?_⟩
  · intro pages currentPage h
    simp only [extractCurrentPageAsBlob]
    rw [if_pos (by omega)]
  · intro pages currentPage pg h1 h2
    have hlt : (currentPage - 1).toNat < pages.length := by
      by_contra hge
      rw [List.getElem?_eq_none (Nat.le_of_not_lt hge)] at h2
      cases h2
    simp only [extractCurrentPageAsBlob]
    rw [if_neg (by omega), h2]

/-- Witness for C10 at a concrete input: page 2 of a 3-page document. -/
theorem C10_extract_current_page_total_witness :
    extractCurrentPageAsBlob (some (Except.ok ["p1", "p2", "p3"])) 2 = some ["p2"] :=
  (C10_extract_current_page_total String).2.2.2 ["p1", "p2", "p3"] 2 "p2"
    (by decide) (by decide)

/-! ### Claim C8: cascading delete of a battle run -/

/-- C8: deleting a BattleRun removes exactly that run, the
battle_provider_results rows referencing it and its battle_feedback row,
and leaves every row belonging to any other run untouched (membership in
each table is preserved in both directions for rows with a different
battle_id). -/
theorem C8_cascade_delete_frame (s : BattleStore) (bid : String) :
    bid ∉ (deleteBattleRun s bid).runs ∧
    (∀ r, r ∈ (deleteBattleRun s bid).results ↔ r ∈ s.results ∧ r.battle_id ≠ bid) ∧
    (∀ f, f ∈ (deleteBattleRun s bid).feedback ↔ f ∈ s.feedback ∧ f.battle_id ≠ bid) ∧
    (∀ x, x ≠ bid → (x ∈ (deleteBattleRun s bid).runs ↔ x ∈ s.runs)) := by
  refine ⟨?_, ?_, ?_, ?_⟩
  · simp [deleteBattleRun, List.mem_filter]
  · intro r; simp [deleteBattleRun, List.mem_filter]
  · intro f; simp [deleteBattleRun, List.mem_filter]
  · intro x hx; simp [deleteBattleRun, List.mem_filter, hx]

/-- Witness for C8 at a concrete input: deleting run b1 from witnessStore
keeps run b2 and drops b1. -/
theorem C8_cascade_delete_frame_witness :
    ("b2" ∈ (deleteBattleRun witnessStore "b1").runs ↔ "b2" ∈ witnessStore.runs) ∧
    "b1" ∉ (deleteBattleRun witnessStore "b1").runs :=
  ⟨(C8_cascade_delete_frame witnessStore "b1").2.2.2 "b2" (by decide),
   (C8_cascade_delete_frame witnessStore "b1").1⟩

/-! ### Claim C7: the blind label map is a bijection -/

/-- C7: for any two distinct chosen providers and either outcome of the
random draw, the blind label map resolves A and B to two distinct
providers which are exactly the two chosen ones, each chosen provider
carries exactly one label, and the two labels are exactly A and B. -/
theorem C7_blind_label_map_bijection (p1 p2 : String) (coin : Bool)
    (hne : p1 ≠ p2) :
    ∃ a b,
      providerOfLabel (assignBlindLabels p1 p2 coin) "A" = some a ∧
      providerOfLabel (assignBlindLabels p1 p2 coin) "B" = some b ∧
      a ≠ b ∧ ((a = p1 ∧ b = p2) ∨ (a = p2 ∧ b = p1)) ∧
      labelOfProvider (assignBlindLabels p1 p2 coin) p1 ≠
        labelOfProvider (assignBlindLabels p1 p2 coin) p2 ∧
      (assignBlindLabels p1 p2 coin).map (fun e => e.1) = [p1, p2] ∧
      ((assignBlindLabels p1 p2 coin).map (fun e => e.2)).Perm ["A", "B"] := by
  cases coin with
  | true =>
    refine ⟨p1, p2, ?_, ?_, hne, Or.inl ⟨rfl, rfl⟩, ?_, ?_, ?_⟩ <;>
      simp [assignBlindLabels, providerOfLabel, labelOfProvider, List.find?,
        hne, Ne.symm hne]
  | false =>
    refine ⟨p2, p1, ?_, ?_, Ne.symm hne, Or.inr ⟨rfl, rfl⟩, ?_, ?_, ?_⟩ <;>
      simp [assignBlindLabels, providerOfLabel, labelOfProvider, List.find?,
        hne, Ne.symm hne]
    exact List.Perm.swap "A" "B" []

/-- Witness for C7 at a concrete input: the heads outcome of the draw
for llamaindex versus reducto. -/
theorem C7_blind_label_map_bijection_witness :
    ∃ a b,
      providerOfLabel (assignBlindLabels "llamaindex" "reducto" true) "A" = some a ∧
      providerOfLabel (assignBlindLabels "llamaindex" "reducto" true) "B" = some b ∧
      a ≠ b ∧
      ((a = "llamaindex" ∧ b = "reducto") ∨ (a = "reducto" ∧ b = "llamaindex")) ∧
      labelOfProvider (assignBlindLabels "llamaindex" "reducto" true) "llamaindex" ≠
        labelOfProvider (assignBlindLabels "llamaindex" "reducto" true) "reducto" ∧
      (assignBlindLabels "llamaindex" "reducto" true).map (fun e => e.1) =
        ["llamaindex", "reducto"] ∧
      ((assignBlindLabels "llamaindex" "reducto" true).map (fun e => e.2)).Perm
        ["A", "B"] :=
  C7_blind_label_map_bijection "llamaindex" "reducto" true (by decide)

/-! ### Claim C3: feedback is append-once per battle -/

/-- C3: under the unique index battle_feedback_battle_id_key, a first
feedback submission for a battle with no stored feedback succeeds,
persists the row and preserves uniqueness, and a second submission for
the same battle_id fails with AlreadyRevealed while lookups still return
the first row unchanged. -/
theorem C3_feedback_append_once (s : BattleStore) (fb fb2 : BattleFeedbackRow)
    (huniq : FeedbackUnique s)
    (hnew : ∀ g ∈ s.feedback, g.battle_id ≠ fb.battle_id)
    (hsame : fb2.battle_id = fb.battle_id) :
    ∃ s2, submitFeedback s fb = Except.ok s2 ∧ FeedbackUnique s2 ∧
      feedbackFor s2 fb.battle_id = some fb ∧
      submitFeedback s2 fb2 = Except.error "AlreadyRevealed" ∧
      feedbackFor s2 fb2.battle_id = some fb := by
  have hany : s.feedback.any (fun g => g.battle_id = fb.battle_id) = false := by
    simp only [List.any_eq_false, decide_eq_true_eq]
    exact hnew
  have hfind : s.feedback.find? (fun g => g.battle_id = fb.battle_id) = none := by
    rw [List.find?_eq_none]
    intro g hg
    simp [hnew g hg]
  refine ⟨{ s with feedback := s.feedback ++ [fb] }, ?_, ?_, ?_, ?_, ?_⟩
  · simp [submitFeedback, hany]
  · unfold FeedbackUnique at huniq ⊢
    rw [List.pairwise_append]
    refine ⟨huniq, by simp, ?_⟩
    intro a ha b hb
    simp only [List.mem_singleton] at hb
    subst hb
    exact hnew a ha
  · simp [feedbackFor, List.find?_append, hfind]
  · simp [submitFeedback, List.any_append, hsame]
  · rw [hsame]
    simp [feedbackFor, List.find?_append, hfind]

/-- Witness for C3 at a concrete input: two submissions for battle b9 on
a fresh store. -/
theorem C3_feedback_append_once_witness :
    ∃ s2, submitFeedback witnessFreshStore witnessFeedback1 = Except.ok s2 ∧
      FeedbackUnique s2 ∧
      feedbackFor s2 witnessFeedback1.battle_id = some witnessFeedback1 ∧
      submitFeedback s2 witnessFeedback2 = Except.error "AlreadyRevealed" ∧
      feedbackFor s2 witnessFeedback2.battle_id = some witnessFeedback1 :=
  C3_feedback_append_once witnessFreshStore witnessFeedback1 witnessFeedback2
    (by simp [FeedbackUnique, witnessFreshStore])
    (by simp [witnessFreshStore]) (by decide)

/-! ### Claim C9: run-level averages -/

/-- C9 (code bug evidence): for provider p with metric m valued 0 in the
first document and 1 in the second (both successful), the JavaScript
falsy guard if (!metricSums[metric]) resets both accumulators when the
running sum is 0, so calculateOverallScores reports average 1 for m even
though both documents contribute (successfulDocuments = 2) and the sum of
contributing values divided by their count is (0 + 1) / 2, which is not 1. -/
theorem C9_zero_sum_reset_drops_contributions :
    (calculateOverallScores c9Documents ["p"]).map
      (fun r => (recordLookup r.averageScores "m", r.successfulDocuments,
        r.totalDocuments)) = [(some 1, 2, 2)] ∧
    ¬ (((0 : ℚ) + 1) / 2 = 1) := by
  constructor
  · simp +decide [calculateOverallScores, overallForProvider, processDoc,
      processScore, c9Documents, c9Doc, recordLookup, recordSet,
      List.find?, List.foldl]
  · norm_num

/-! ### Claim C6: pool size guard and distinct random pair -/

/-- C6: a provider pool of fewer than 2 members is rejected with
ConfigurationError before anything is dispatched; for every pool of 2 or
more distinct providers and every random draw, the selection returns
exactly 2 distinct members of the pool; and the client-side checkbox
guard of ModelSelectionCard refuses to shrink an enabled pool that is at
2 members. -/
theorem C6_pool_guard_and_distinct_draw :
    (∀ (pool : List String) (s1 s2 : Nat), pool.length < 2 →
      selectBattlePair pool s1 s2 = Except.error "ConfigurationError") ∧
    (∀ (pool : List String) (s1 s2 : Nat), 2 ≤ pool.length → pool.Nodup →
      ∃ a b, selectBattlePair pool s1 s2 = Except.ok (a, b) ∧
        a ∈ pool ∧ b ∈ pool ∧ a ≠ b) ∧
    (∀ (enabled : List String) (p : String), enabled.length ≤ 2 → p ∈ enabled →
      providerToggleDisabled enabled p = true) := by
  refine ⟨?_, ?_, ?_⟩
  · intro pool s1 s2 h
    simp [selectBattlePair, h]
  · intro pool s1 s2 hlen hnd
    have hn : 0 < pool.length := by omega
    have hi : s1 % pool.length < pool.length := Nat.mod_lt _ hn
    have hk : s2 % (pool.length - 1) < pool.length - 1 :=
      Nat.mod_lt _ (by omega)
    have hj :
        (if s1 % pool.length ≤ s2 % (pool.length - 1) then
          s2 % (pool.length - 1) + 1 else s2 % (pool.length - 1)) < pool.length := by
      split <;> omega
    have hij :
        s1 % pool.length ≠
        (if s1 % pool.length ≤ s2 % (pool.length - 1) then
          s2 % (pool.length - 1) + 1 else s2 % (pool.length - 1)) := by
      split <;> omega
    refine ⟨pool.getD (s1 % pool.length) "",
      pool.getD (if s1 % pool.length ≤ s2 % (pool.length - 1) then
        s2 % (pool.length - 1) + 1 else s2 % (pool.length - 1)) "", ?_, ?_, ?_, ?_⟩
    · simp only [selectBattlePair]
      rw [if_neg (by omega)]
    · rw [List.getD_eq_getElem?_getD, List.getElem?_eq_getElem hi]
      exact List.getElem_mem hi
    · rw [List.getD_eq_getElem?_getD, List.getElem?_eq_getElem hj]
      exact List.getElem_mem hj
    · rw [List.getD_eq_getElem?_getD, List.getElem?_eq_getElem hi,
        List.getD_eq_getElem?_getD, List.getElem?_eq_getElem hj]
      simp only [Option.getD_some]
      intro heq
      exact hij (hnd.getElem_inj_iff.mp heq)
  · intro enabled p h1 h2
    simp [providerToggleDisabled, h1, h2]

/-- Witness for C6 at a concrete input: a three-provider pool with seeds
0 and 0 draws two distinct members. -/
theorem C6_pool_guard_and_distinct_draw_witness :
    ∃ a b, selectBattlePair ["llamaindex", "reducto", "landingai"] 0 0 =
        Except.ok (a, b) ∧
      a ∈ ["llamaindex", "reducto", "landingai"] ∧
      b ∈ ["llamaindex", "reducto", "landingai"] ∧ a ≠ b :=
  C6_pool_guard_and_distinct_draw.2.1 ["llamaindex", "reducto", "landingai"] 0 0
    (by decide) (by decide)

/-! ### Claims C1 and C2: the streamed event sequence -/

theorem recordLookup_isSome_of_mem_keys {α : Type} (l : List (String × α))
    (k : String) (h : k ∈ l.map (fun e => e.1)) :
    ∃ v, recordLookup l k = some v := by
  obtain ⟨e, he, hek⟩ := List.mem_map.mp h
  have hsome : (l.find? (fun e => e.1 = k)).isSome := by
    rw [List.find?_isSome]
    exact ⟨e, he, by simp [hek]⟩
  obtain ⟨f, hf⟩ := Option.isSome_iff_exists.mp hsome
  exact ⟨f.2, by simp [recordLookup, hf]⟩

theorem streamEvents_middle_spec (job : List (String × ProviderOutcome)) :
    ∀ order : List String, (∀ p ∈ order, p ∈ job.map (fun e => e.1)) →
      (∀ e ∈ order.filterMap (fun p =>
          (recordLookup job p).map (fun o => StreamEvent.progress p o.status)),
        isProgressEvent e = true) ∧
      (order.filterMap (fun p =>
          (recordLookup job p).map (fun o => StreamEvent.progress p o.status))).filterMap
        progressProviderOf = order ∧
      (order.filterMap (fun p =>
          (recordLookup job p).map (fun o => StreamEvent.progress p o.status))).length
        = order.length := by
  intro order
  induction order with
  | nil => intro _; exact ⟨by simp, by simp, by simp⟩
  | cons p t ih =>
    intro h
    obtain ⟨o, ho⟩ :=
      recordLookup_isSome_of_mem_keys job p (h p (List.mem_cons_self p t))
    obtain ⟨ih1, ih2, ih3⟩ := ih (fun q hq => h q (List.mem_cons_of_mem p hq))
    refine ⟨?_, ?_, ?_⟩
    · intro e hee
      rw [List.filterMap_cons, ho] at hee
      simp only [Option.map_some'] at hee
      rcases List.mem_cons.mp hee with rfl | htail
      · rfl
      · exact ih1 e htail
    · rw [List.filterMap_cons, ho]
      simp only [Option.map_some', List.filterMap_cons]
      rw [show progressProviderOf (StreamEvent.progress p o.status) = some p from rfl]
      rw [ih2]
    · rw [List.filterMap_cons, ho]
      simp only [Option.map_some', List.length_cons]
      rw [ih3]

/-- C1: for every job over any set of selected providers and every real
completion order of those providers, the delivered stream is exactly one
started event first (listing all selected providers), then one progress
event per requested provider (their providers enumerating the completion
order, a permutation of the selected providers), then exactly one
completed event strictly after all progress events; the started, progress
and completed event counts over the whole stream are 1, N and 1. -/
theorem C1_stream_event_shape (job : List (String × ProviderOutcome))
    (order : List String) (hperm : order.Perm (job.map (fun e => e.1))) :
    ∃ middle,
      streamEvents job order =
        StreamEvent.started (job.map (fun e => e.1)) ::
          (middle ++ [StreamEvent.completed job]) ∧
      (∀ e ∈ middle, isProgressEvent e = true) ∧
      middle.filterMap progressProviderOf = order ∧
      middle.length = job.length ∧
      (streamEvents job order).countP isStartedEvent = 1 ∧
      (streamEvents job order).countP isProgressEvent = job.length ∧
      (streamEvents job order).countP isCompletedEvent = 1 := by
  have hmem : ∀ p ∈ order, p ∈ job.map (fun e => e.1) :=
    fun p hp => hperm.subset hp
  obtain ⟨h1, h2, h3⟩ := streamEvents_middle_spec job order hmem
  have hlen : (order.filterMap (fun p =>
      (recordLookup job p).map (fun o => StreamEvent.progress p o.status))).length
      = job.length := by
    rw [h3, hperm.length_eq, List.length_map]
  refine ⟨_, rfl, h1, h2, hlen, ?_, ?_, ?_⟩
  · rw [streamEvents, List.countP_cons, List.countP_append]
    rw [List.countP_eq_zero.mpr ?_]
    · simp [isStartedEvent]
    · intro e he
      have := h1 e he
      cases e <;> simp_all [isProgressEvent, isStartedEvent]
  · rw [streamEvents, List.countP_cons, List.countP_append]
    rw [List.countP_eq_length.mpr h1, hlen]
    simp [isProgressEvent]
  · rw [streamEvents, List.countP_cons, List.countP_append]
    rw [List.countP_eq_zero.mpr ?_]
    · simp [isCompletedEvent]
    · intro e he
      have := h1 e he
      cases e <;> simp_all [isProgressEvent, isCompletedEvent]

/-- Witness for C1 at a concrete input: the two-provider job in which
reducto fails and finishes first. -/
theorem C1_stream_event_shape_witness :
    ∃ middle,
      streamEvents witnessJob witnessOrder =
        StreamEvent.started (witnessJob.map (fun e => e.1)) ::
          (middle ++ [StreamEvent.completed witnessJob]) ∧
      (∀ e ∈ middle, isProgressEvent e = true) ∧
      middle.filterMap progressProviderOf = witnessOrder ∧
      middle.length = witnessJob.length ∧
      (streamEvents witnessJob witnessOrder).countP isStartedEvent = 1 ∧
      (streamEvents witnessJob witnessOrder).countP isProgressEvent =
        witnessJob.length ∧
      (streamEvents witnessJob witnessOrder).countP isCompletedEvent = 1 :=
  C1_stream_event_shape witnessJob witnessOrder
    (List.Perm.swap "llamaindex" "reducto" [])

/-- C2: a single provider failure is never surfaced as a fatal stream
event: the failing provider is reported by a progress event carrying its
error status, no fatal_error event ever appears in a started job stream,
and the completed event still delivers the outcome of every sibling
provider. -/
theorem C2_provider_failure_isolated (job : List (String × ProviderOutcome))
    (order : List String) (p : String) (o : ProviderOutcome) (msg : String)
    (hperm : order.Perm (job.map (fun e => e.1)))
    (hlook : recordLookup job p = some o)
    (hst : o.status = OutcomeStatus.error msg) :
    StreamEvent.progress p (OutcomeStatus.error msg) ∈ streamEvents job order ∧
    (∀ m, StreamEvent.fatalError m ∉ streamEvents job order) ∧
    (∃ res, StreamEvent.completed res ∈ streamEvents job order ∧
      ∀ q oq, (q, oq) ∈ job → (q, oq) ∈ res) := by
  have hpkeys : p ∈ job.map (fun e => e.1) := by
    have hfind : (job.find? (fun e => e.1 = p)).isSome := by
      unfold recordLookup at hlook
      cases hf : job.find? (fun e => e.1 = p) with
      | none => rw [hf] at hlook; cases hlook
      | some e => simp [hf]
    rw [List.find?_isSome] at hfind
    obtain ⟨e, he, hep⟩ := hfind
    simp only [decide_eq_true_eq] at hep
    exact List.mem_map.mpr ⟨e, he, hep⟩
  have hpord : p ∈ order := hperm.mem_iff.mpr hpkeys
  refine ⟨?_, ?_, ⟨job, ?_, fun q oq hq => hq⟩⟩
  · rw [streamEvents]
    refine List.mem_cons_of_mem _ (List.mem_append_left _ ?_)
    exact List.mem_filterMap.mpr ⟨p, hpord, by rw [hlook]; simp [hst]⟩
  · intro m hm
    rw [streamEvents] at hm
    rcases List.mem_cons.mp hm with hs | hm2
    · cases hs
    rcases List.mem_append.mp hm2 with hmid | hlast
    · obtain ⟨q, _, hq⟩ := List.mem_filterMap.mp hmid
      cases hql : recordLookup job q with
      | none => rw [hql] at hq; cases hq
      | some oq => rw [hql] at hq; simp at hq
    · rcases List.mem_singleton.mp hlast with h
      cases h
  · rw [streamEvents]
    exact List.mem_cons_of_mem _ (List.mem_append_right _ (List.mem_singleton.mpr rfl))

/-- Witness for C2 at a concrete input: in witnessJob, reducto fails with
a timeout while llamaindex succeeds. -/
theorem C2_provider_failure_isolated_witness :
    StreamEvent.progress "reducto" (OutcomeStatus.error "timeout") ∈
      streamEvents witnessJob witnessOrder ∧
    (∀ m, StreamEvent.fatalError m ∉ streamEvents witnessJob witnessOrder) ∧
    (∃ res, StreamEvent.completed res ∈ streamEvents witnessJob witnessOrder ∧
      ∀ q oq, (q, oq) ∈ witnessJob → (q, oq) ∈ res) :=
  C2_provider_failure_isolated witnessJob witnessOrder "reducto"
    { status := OutcomeStatus.error "timeout", pages := [], duration := 30 }
    "timeout" (List.Perm.swap "llamaindex" "reducto" []) (by decide) (by decide)

end DocArena
